import Mathlib

/-!
# Verification of `pkg/plex/listener.go`

A shallow embedding of the notification handler of the Plex exporter
(`getSessionByID` and `plexListener.onPlaying`) and theorems about it.

The handler talks to three collaborators: the Plex connection (`GetSessions`,
`GetMetadata`), the logger and the registry of active sessions (`Update`).
A run of `onPlaying` is embedded as the list of calls it makes to these
collaborators, in program order, together with the way the call ends.
-/

set_option autoImplicit false

namespace Plex

/-! ## Data model: the fields of the client library types read by the listener -/

/-- The `User` part of a session entry. -/
structure User where
  ID : String
  Title : String
deriving DecidableEq, Repr

/-- A `plex.Metadata` value: an entry of the current-sessions list, or an
entry of a metadata answer. -/
structure Metadata where
  SessionKey : String
  RatingKey : String
  Title : String
  User : User
deriving DecidableEq, Repr

/-- The `MediaContainer` of an answer of the server. -/
structure MediaContainer where
  Metadata : List Metadata
deriving DecidableEq, Repr

/-- The answer of `GetSessions`. -/
structure CurrentSessions where
  MediaContainer : MediaContainer
deriving DecidableEq, Repr

/-- The answer of `GetMetadata`. -/
structure MediaMetadata where
  MediaContainer : MediaContainer
deriving DecidableEq, Repr

/-- One play-session notification of a pushed batch. `ViewOffset` is an
`int64` number of milliseconds. -/
structure PlaySessionStateNotification where
  SessionKey : String
  State : String
  RatingKey : String
  ViewOffset : Int
deriving DecidableEq, Repr

/-- A pushed batch of notifications. -/
structure NotificationContainer where
  PlaySessionStateNotification : List PlaySessionStateNotification
deriving DecidableEq, Repr

/-- The two queries of the connection `l.conn` used by `onPlaying`. A failed
query carries the error value of the client library. -/
structure PlexConn where
  GetSessions : Except String CurrentSessions
  GetMetadata : String → Except String MediaMetadata

/-- The listener: `onPlaying` reads only its connection; the registry
`activeSessions` and the logger are observed through the calls made to them. -/
structure plexListener where
  conn : PlexConn

/-- The key/value pairs of the `level.Info` line written for an enriched
notification. The `timestamp` is a `time.Duration`: an `int64` number of
nanoseconds. -/
structure LogLine where
  SessionKey : String
  userName : String
  userID : String
  state : String
  mediaTitle : String
  mediaID : String
  timestamp : Int
deriving DecidableEq, Repr

/-- A call made by `onPlaying` to one of its collaborators. The type `σ` is
the type `sessionState` of the registry. -/
inductive Call (σ : Type) where
  | GetSessions : Call σ
  | GetMetadata (ratingKey : String) : Call σ
  | LogInfo (line : LogLine) : Call σ
  | Update (sessionKey : String) (state : σ) (session : Option Metadata)
      (media : Option Metadata) : Call σ
deriving DecidableEq, Repr

/-- The error values built by `onPlaying` with `fmt.Errorf`. -/
inductive OnPlayingError where
  | fetchingSessions (err : String) : OnPlayingError
  | gettingSession (sessionKey : String) (n : PlaySessionStateNotification) : OnPlayingError
  | fetchingMetadata (ratingKey : String) (err : String) : OnPlayingError
deriving DecidableEq, Repr

/-- The way a call of `onPlaying` ends: `return nil`, `return` of an error,
or the run-time failure of indexing `Metadata[0]` in an empty slice. -/
inductive Outcome where
  | ok : Outcome
  | error (e : OnPlayingError) : Outcome
  | indexOutOfRange : Outcome
deriving DecidableEq, Repr

/-- A run: the calls made, in program order, and the outcome. -/
structure Run (σ : Type) where
  calls : List (Call σ)
  outcome : Outcome
deriving DecidableEq, Repr

/-- Put calls made earlier in front of a run. -/
def Run.after {σ : Type} (cs : List (Call σ)) (r : Run σ) : Run σ :=
  ⟨cs ++ r.calls, r.outcome⟩

/-! ## The program -/

/-- The value of an `int64` computation whose exact result is `x`: the result
wraps around in two-complement. -/
def wrapInt64 (x : Int) : Int :=
  (x + 9223372036854775808) % 18446744073709551616 - 9223372036854775808

/-- The constant `time.Millisecond` of the standard library, in nanoseconds. -/
def time.Millisecond : Int := 1000000

/-- The loop of `getSessionByID` over `sessions.MediaContainer.Metadata`. -/
def getSessionByID.loop (sessionID : String) : List Metadata → Option Metadata
  | [] => none
  | session :: rest =>
    if sessionID = session.SessionKey then some session
    else getSessionByID.loop sessionID rest

/-- Embedding of `getSessionByID`: `nil` is `none`, `&session` is `some session`. -/
def getSessionByID (sessions : CurrentSessions) (sessionID : String) : Option Metadata :=
  getSessionByID.loop sessionID sessions.MediaContainer.Metadata

section onPlaying

variable {σ : Type} [DecidableEq σ]

/-- The `for _, n := range c.PlaySessionStateNotification` loop of `onPlaying`.
The conversion `sessionState` and the constant `stateStopped` are declared in
a file of the package that is not at hand; they are parameters. -/
def onPlaying.loop (sessionState : String → σ) (stateStopped : σ) (l : plexListener)
    (sessions : CurrentSessions) : List PlaySessionStateNotification → Run σ
  | [] => ⟨[], Outcome.ok⟩
  | n :: rest =>
    if sessionState n.State = stateStopped then
      Run.after [Call.Update n.SessionKey (sessionState n.State) none none]
        (onPlaying.loop sessionState stateStopped l sessions rest)
    else
      match getSessionByID sessions n.SessionKey with
      | none => ⟨[], Outcome.error (OnPlayingError.gettingSession n.SessionKey n)⟩
      | some session =>
        match l.conn.GetMetadata n.RatingKey with
        | Except.error err =>
          ⟨[Call.GetMetadata n.RatingKey],
            Outcome.error (OnPlayingError.fetchingMetadata n.RatingKey err)⟩
        | Except.ok metadata =>
          match metadata.MediaContainer.Metadata with
          | [] => ⟨[Call.GetMetadata n.RatingKey], Outcome.indexOutOfRange⟩
          | media :: _ =>
            Run.after
              [Call.GetMetadata n.RatingKey,
               Call.LogInfo ⟨n.SessionKey, session.User.Title, session.User.ID, n.State,
                 media.Title, media.RatingKey,
                 wrapInt64 (time.Millisecond * n.ViewOffset)⟩,
               Call.Update n.SessionKey (sessionState n.State) (some session) (some media)]
              (onPlaying.loop sessionState stateStopped l sessions rest)

/-- Embedding of `plexListener.onPlaying`. -/
def onPlaying (sessionState : String → σ) (stateStopped : σ) (l : plexListener)
    (c : NotificationContainer) : Run σ :=
  match l.conn.GetSessions with
  | Except.error err => ⟨[Call.GetSessions], Outcome.error (OnPlayingError.fetchingSessions err)⟩
  | Except.ok sessions =>
    Run.after [Call.GetSessions]
      (onPlaying.loop sessionState stateStopped l sessions c.PlaySessionStateNotification)

end onPlaying

/-! ## Observations on runs -/

/-- The `Registry.Update` calls of a list of calls, in order. -/
def updates {σ : Type} : List (Call σ) → List (Call σ)
  | [] => []
  | Call.Update k s u m :: cs => Call.Update k s u m :: updates cs
  | _ :: cs => updates cs

/-- The notifications that the loop of `onPlaying` applies to the registry and
steps over: a stopped one, or one whose session is listed and whose metadata
query answers with at least one entry. -/
def Applies {σ : Type} (sessionState : String → σ) (stateStopped : σ) (l : plexListener)
    (sessions : CurrentSessions) (n : PlaySessionStateNotification) : Prop :=
  sessionState n.State = stateStopped ∨
    ∃ session md media more, getSessionByID sessions n.SessionKey = some session ∧
      l.conn.GetMetadata n.RatingKey = Except.ok md ∧
      md.MediaContainer.Metadata = media :: more

/-- The notifications at which the loop of `onPlaying` returns an error: a
notification that is not stopped and whose session is not listed or whose
metadata query fails. -/
def Fails {σ : Type} (sessionState : String → σ) (stateStopped : σ) (l : plexListener)
    (sessions : CurrentSessions) (n : PlaySessionStateNotification) : Prop :=
  sessionState n.State ≠ stateStopped ∧
    (getSessionByID sessions n.SessionKey = none ∨
      ∃ err, l.conn.GetMetadata n.RatingKey = Except.error err)

/-- The call `u` is an `Update` for the notification `n`: it carries the
session key of `n` and the state converted from its state label. -/
def IsUpdateOf {σ : Type} (sessionState : String → σ) (n : PlaySessionStateNotification)
    (u : Call σ) : Prop :=
  ∃ session media, u = Call.Update n.SessionKey (sessionState n.State) session media

/-- Two notifications that agree on everything but `ViewOffset`. -/
def SameButViewOffset (a b : PlaySessionStateNotification) : Prop :=
  a.SessionKey = b.SessionKey ∧ a.State = b.State ∧ a.RatingKey = b.RatingKey

/-! ## Concrete inputs

The registry states are the state labels themselves and `"stopped"` is the
stopped state. -/

/-- The session `s1` of user 7, alice. -/
def aliceSession : Metadata := ⟨"s1", "m1", "", ⟨"7", "alice"⟩⟩

/-- The media entry `m1`, titled Movie. -/
def movie : Metadata := ⟨"", "m1", "Movie", ⟨"", ""⟩⟩

/-- A reachable server: it lists the session `s1`, knows the media `m1`,
answers the query for `m0` with an empty list and fails every other metadata
query. -/
def demoConn : PlexConn where
  GetSessions := Except.ok ⟨⟨[aliceSession]⟩⟩
  GetMetadata := fun k =>
    if k = "m1" then Except.ok ⟨⟨[movie]⟩⟩
    else if k = "m0" then Except.ok ⟨⟨[]⟩⟩
    else Except.error "404 Not Found"

/-- An unreachable server. -/
def downConn : PlexConn where
  GetSessions := Except.error "connection refused"
  GetMetadata := fun _ => Except.error "connection refused"

def demoListener : plexListener := ⟨demoConn⟩

def downListener : plexListener := ⟨downConn⟩

/-- Session `s1` plays `m1`. -/
def playingS1 : PlaySessionStateNotification := ⟨"s1", "playing", "m1", 1000⟩

/-- Session `s1` has stopped. -/
def stoppedS1 : PlaySessionStateNotification := ⟨"s1", "stopped", "m1", 5000⟩

/-- Session `s1` plays `m1`, one second further into the media. -/
def playingS1Later : PlaySessionStateNotification := ⟨"s1", "playing", "m1", 2000⟩

/-- Session `s2`, which the server does not list, plays `m1`. -/
def playingS2 : PlaySessionStateNotification := ⟨"s2", "playing", "m1", 1000⟩

/-- Session `s3`, which the server does not list, has stopped. -/
def stoppedS3 : PlaySessionStateNotification := ⟨"s3", "stopped", "m1", 2500⟩

/-- Session `s1` plays `m9`, whose metadata query fails. -/
def playingS1Unknown : PlaySessionStateNotification := ⟨"s1", "playing", "m9", 1000⟩

/-- Session `s1` plays `m0`, whose metadata query answers with an empty list. -/
def playingS1Empty : PlaySessionStateNotification := ⟨"s1", "playing", "m0", 1000⟩

/-! ## `getSessionByID` -/

theorem getSessionByID.loop_eq_none (sessionID : String) (ms : List Metadata) :
    getSessionByID.loop sessionID ms = none ↔ ∀ s ∈ ms, s.SessionKey ≠ sessionID := by
  induction ms with
  | nil => simp [getSessionByID.loop]
  | cons m ms ih =>
    by_cases h : sessionID = m.SessionKey
    · simp [getSessionByID.loop, h]
    · have h2 : ¬ m.SessionKey = sessionID := fun e => h e.symm
      simp [getSessionByID.loop, h, h2, ih]

theorem getSessionByID.loop_eq_some (sessionID : String) (ms : List Metadata) (s : Metadata) :
    getSessionByID.loop sessionID ms = some s ↔
      ∃ pre post, ms = pre ++ s :: post ∧ s.SessionKey = sessionID ∧
        ∀ p ∈ pre, p.SessionKey ≠ sessionID := by
  induction ms with
  | nil => simp [getSessionByID.loop]
  | cons m ms ih =>
    by_cases h : sessionID = m.SessionKey
    · simp only [getSessionByID.loop, h, if_true, Option.some.injEq]
      constructor
      · rintro rfl
        exact ⟨[], ms, rfl, rfl, by simp⟩
      · rintro ⟨pre, post, hms, hk, hpre⟩
        cases pre with
        | nil => simp at hms; exact hms.1
        | cons p pre =>
          simp at hms
          exact absurd (hms.1 ▸ rfl) (hpre p (by simp))
    · simp only [getSessionByID.loop, h, if_false, ih]
      constructor
      · rintro ⟨pre, post, hms, hk, hpre⟩
        refine ⟨m :: pre, post, by simp [hms], hk, ?_⟩
        intro p hp
        rcases List.mem_cons.mp hp with rfl | hp
        · exact fun e => h e.symm
        · exact hpre p hp
      · rintro ⟨pre, post, hms, hk, hpre⟩
        cases pre with
        | nil =>
          simp at hms
          exact absurd (hms.1 ▸ hk.symm) h
        | cons p pre =>
          simp at hms
          exact ⟨pre, post, hms.2, hk, fun q hq => hpre q (by simp [hq])⟩

/-- C9: `getSessionByID` is a first-match search. It returns `nil` exactly
when no entry of the current-sessions list has the requested `SessionKey`; it
returns an entry `s` exactly when `s` is the first entry in list order whose
`SessionKey` is the requested id; so a returned entry always carries the
requested id. -/
theorem getSessionByID_first_match (sessions : CurrentSessions) (sessionID : String) :
    (getSessionByID sessions sessionID = none ↔
      ∀ s ∈ sessions.MediaContainer.Metadata, s.SessionKey ≠ sessionID) ∧
    (∀ s, getSessionByID sessions sessionID = some s ↔
      ∃ pre post, sessions.MediaContainer.Metadata = pre ++ s :: post ∧
        s.SessionKey = sessionID ∧ ∀ p ∈ pre, p.SessionKey ≠ sessionID) ∧
    (∀ s, getSessionByID sessions sessionID = some s → s.SessionKey = sessionID) := by
  refine ⟨getSessionByID.loop_eq_none _ _, fun s => getSessionByID.loop_eq_some _ _ s, ?_⟩
  intro s hs
  obtain ⟨_, _, _, hk, _⟩ := (getSessionByID.loop_eq_some _ _ s).mp hs
  exact hk


/-! ## The `int64` arithmetic of the log line -/

/-- A result within the range of `int64` is not changed by the wrap-around. -/
theorem wrapInt64_of_in_range (x : Int) (hlo : -9223372036854775808 ≤ x)
    (hhi : x < 9223372036854775808) : wrapInt64 x = x := by
  unfold wrapInt64
  omega

/-- The product logged for a view offset of 9223372036855 milliseconds
exceeds the range of `int64` and wraps around to a negative duration. -/
theorem wrapInt64_millisecond_overflow :
    wrapInt64 (time.Millisecond * 9223372036855) = -9223372036854551616 := by
  decide

/-! ## The five ways the loop of `onPlaying` treats a notification -/

section loop

variable {σ : Type} [DecidableEq σ] (sessionState : String → σ) (stateStopped : σ)
  (l : plexListener) (sessions : CurrentSessions)

theorem onPlaying.loop_stopped (n : PlaySessionStateNotification)
    (rest : List PlaySessionStateNotification) (hn : sessionState n.State = stateStopped) :
    onPlaying.loop sessionState stateStopped l sessions (n :: rest) =
      Run.after [Call.Update n.SessionKey stateStopped none none]
        (onPlaying.loop sessionState stateStopped l sessions rest) := by
  simp [onPlaying.loop, hn]

theorem onPlaying.loop_missing (n : PlaySessionStateNotification)
    (rest : List PlaySessionStateNotification) (hn : sessionState n.State ≠ stateStopped)
    (hg : getSessionByID sessions n.SessionKey = none) :
    onPlaying.loop sessionState stateStopped l sessions (n :: rest) =
      ⟨[], Outcome.error (OnPlayingError.gettingSession n.SessionKey n)⟩ := by
  simp [onPlaying.loop, hn, hg]

theorem onPlaying.loop_fetch_error (n : PlaySessionStateNotification)
    (rest : List PlaySessionStateNotification) (session : Metadata) (err : String)
    (hn : sessionState n.State ≠ stateStopped)
    (hg : getSessionByID sessions n.SessionKey = some session)
    (hm : l.conn.GetMetadata n.RatingKey = Except.error err) :
    onPlaying.loop sessionState stateStopped l sessions (n :: rest) =
      ⟨[Call.GetMetadata n.RatingKey],
        Outcome.error (OnPlayingError.fetchingMetadata n.RatingKey err)⟩ := by
  simp [onPlaying.loop, hn, hg, hm]

theorem onPlaying.loop_empty (n : PlaySessionStateNotification)
    (rest : List PlaySessionStateNotification) (session : Metadata) (md : MediaMetadata)
    (hn : sessionState n.State ≠ stateStopped)
    (hg : getSessionByID sessions n.SessionKey = some session)
    (hm : l.conn.GetMetadata n.RatingKey = Except.ok md)
    (he : md.MediaContainer.Metadata = []) :
    onPlaying.loop sessionState stateStopped l sessions (n :: rest) =
      ⟨[Call.GetMetadata n.RatingKey], Outcome.indexOutOfRange⟩ := by
  simp [onPlaying.loop, hn, hg, hm, he]

theorem onPlaying.loop_enriched (n : PlaySessionStateNotification)
    (rest : List PlaySessionStateNotification) (session : Metadata) (md : MediaMetadata)
    (media : Metadata) (more : List Metadata)
    (hn : sessionState n.State ≠ stateStopped)
    (hg : getSessionByID sessions n.SessionKey = some session)
    (hm : l.conn.GetMetadata n.RatingKey = Except.ok md)
    (he : md.MediaContainer.Metadata = media :: more) :
    onPlaying.loop sessionState stateStopped l sessions (n :: rest) =
      Run.after
        [Call.GetMetadata n.RatingKey,
         Call.LogInfo ⟨n.SessionKey, session.User.Title, session.User.ID, n.State,
           media.Title, media.RatingKey, wrapInt64 (time.Millisecond * n.ViewOffset)⟩,
         Call.Update n.SessionKey (sessionState n.State) (some session) (some media)]
        (onPlaying.loop sessionState stateStopped l sessions rest) := by
  simp [onPlaying.loop, hn, hg, hm, he]

/-- Every notification falls in one of the five cases. -/
theorem onPlaying.loop_cases (n : PlaySessionStateNotification) :
    sessionState n.State = stateStopped ∨
    (sessionState n.State ≠ stateStopped ∧ getSessionByID sessions n.SessionKey = none) ∨
    (sessionState n.State ≠ stateStopped ∧ ∃ session err,
      getSessionByID sessions n.SessionKey = some session ∧
      l.conn.GetMetadata n.RatingKey = Except.error err) ∨
    (sessionState n.State ≠ stateStopped ∧ ∃ session md,
      getSessionByID sessions n.SessionKey = some session ∧
      l.conn.GetMetadata n.RatingKey = Except.ok md ∧ md.MediaContainer.Metadata = []) ∨
    (sessionState n.State ≠ stateStopped ∧ ∃ session md media more,
      getSessionByID sessions n.SessionKey = some session ∧
      l.conn.GetMetadata n.RatingKey = Except.ok md ∧
      md.MediaContainer.Metadata = media :: more) := by
  by_cases hn : sessionState n.State = stateStopped
  · exact Or.inl hn
  · right
    cases hg : getSessionByID sessions n.SessionKey with
    | none => exact Or.inl ⟨hn, rfl⟩
    | some session =>
      right
      cases hm : l.conn.GetMetadata n.RatingKey with
      | error err => exact Or.inl ⟨hn, session, err, rfl, rfl⟩
      | ok md =>
        right
        cases he : md.MediaContainer.Metadata with
        | nil => exact Or.inl ⟨hn, session, md, rfl, rfl, he⟩
        | cons media more => exact Or.inr ⟨hn, session, md, media, more, rfl, rfl, he⟩

/-- A notification that the loop applies is stepped over: the loop goes on
with the rest of the batch. -/
theorem onPlaying.loop_cons_outcome_ok (n : PlaySessionStateNotification)
    (rest : List PlaySessionStateNotification) :
    (onPlaying.loop sessionState stateStopped l sessions (n :: rest)).outcome = Outcome.ok ↔
      Applies sessionState stateStopped l sessions n ∧
      (onPlaying.loop sessionState stateStopped l sessions rest).outcome = Outcome.ok := by
  rcases onPlaying.loop_cases sessionState stateStopped l sessions n with
    hn | ⟨hn, hg⟩ | ⟨hn, session, err, hg, hm⟩ | ⟨hn, session, md, hg, hm, he⟩ |
    ⟨hn, session, md, media, more, hg, hm, he⟩
  · rw [onPlaying.loop_stopped sessionState stateStopped l sessions n rest hn]
    simp [Run.after, Applies, hn]
  · rw [onPlaying.loop_missing sessionState stateStopped l sessions n rest hn hg]
    simp [Applies, hn, hg]
  · rw [onPlaying.loop_fetch_error sessionState stateStopped l sessions n rest session err hn hg hm]
    simp [Applies, hn, hg, hm]
  · rw [onPlaying.loop_empty sessionState stateStopped l sessions n rest session md hn hg hm he]
    constructor
    · intro h
      cases h
    · rintro ⟨happ, _⟩
      rcases happ with h | ⟨_, md2, media, more, _, hm2, he2⟩
      · exact absurd h hn
      · rw [hm] at hm2
        cases hm2
        rw [he] at he2
        cases he2
  · rw [onPlaying.loop_enriched sessionState stateStopped l sessions n rest session md media more
      hn hg hm he]
    simp [Run.after, Applies, hn, hg, hm, he]

/-- The loop runs through a list of notifications without returning exactly
when it applies each of them. -/
theorem onPlaying.loop_outcome_ok (ns : List PlaySessionStateNotification) :
    (onPlaying.loop sessionState stateStopped l sessions ns).outcome = Outcome.ok ↔
      ∀ p ∈ ns, Applies sessionState stateStopped l sessions p := by
  induction ns with
  | nil => simp [onPlaying.loop]
  | cons n ns ih =>
    rw [onPlaying.loop_cons_outcome_ok, ih]
    simp

/-- When the loop runs through `pre` without returning, the run on
`pre ++ rest` is the run on `pre` followed by the run on `rest`. -/
theorem onPlaying.loop_append (pre rest : List PlaySessionStateNotification)
    (h : (onPlaying.loop sessionState stateStopped l sessions pre).outcome = Outcome.ok) :
    onPlaying.loop sessionState stateStopped l sessions (pre ++ rest) =
      Run.after (onPlaying.loop sessionState stateStopped l sessions pre).calls
        (onPlaying.loop sessionState stateStopped l sessions rest) := by
  induction pre with
  | nil => simp [onPlaying.loop, Run.after]
  | cons n pre ih =>
    have h2 := (onPlaying.loop_cons_outcome_ok sessionState stateStopped l sessions n pre).mp h
    have ih2 := ih h2.2
    rcases h2.1 with hn | ⟨session, md, media, more, hg, hm, he⟩
    · rw [List.cons_append, onPlaying.loop_stopped sessionState stateStopped l sessions n _ hn,
        onPlaying.loop_stopped sessionState stateStopped l sessions n _ hn, ih2]
      simp [Run.after]
    · by_cases hn : sessionState n.State = stateStopped
      · rw [List.cons_append, onPlaying.loop_stopped sessionState stateStopped l sessions n _ hn,
          onPlaying.loop_stopped sessionState stateStopped l sessions n _ hn, ih2]
        simp [Run.after]
      · rw [List.cons_append,
          onPlaying.loop_enriched sessionState stateStopped l sessions n _ session md media more
            hn hg hm he,
          onPlaying.loop_enriched sessionState stateStopped l sessions n _ session md media more
            hn hg hm he, ih2]
        simp [Run.after]

/-- When the current-sessions query succeeds, `onPlaying` is that query
followed by the loop. -/
theorem onPlaying_of_sessions (c : NotificationContainer)
    (hs : l.conn.GetSessions = Except.ok sessions) :
    onPlaying sessionState stateStopped l c =
      Run.after [Call.GetSessions]
        (onPlaying.loop sessionState stateStopped l sessions c.PlaySessionStateNotification) := by
  simp [onPlaying, hs]

theorem updates_append {τ : Type} (a b : List (Call τ)) :
    updates (a ++ b) = updates a ++ updates b := by
  induction a with
  | nil => rfl
  | cons x a ih => cases x <;> simp [updates, ih]

/-- A notification that the loop applies contributes exactly one `Update`,
for its own key and state, and the loop goes on. -/
theorem onPlaying.loop_cons_applies (n : PlaySessionStateNotification)
    (rest : List PlaySessionStateNotification)
    (hn : Applies sessionState stateStopped l sessions n) :
    (onPlaying.loop sessionState stateStopped l sessions (n :: rest)).outcome =
      (onPlaying.loop sessionState stateStopped l sessions rest).outcome ∧
    ∃ u, IsUpdateOf sessionState n u ∧
      updates (onPlaying.loop sessionState stateStopped l sessions (n :: rest)).calls =
        u :: updates (onPlaying.loop sessionState stateStopped l sessions rest).calls := by
  by_cases hst : sessionState n.State = stateStopped
  · rw [onPlaying.loop_stopped sessionState stateStopped l sessions n rest hst]
    exact ⟨rfl, _, ⟨none, none, by rw [hst]⟩, by simp [Run.after, updates]⟩
  · rcases hn with hn | ⟨session, md, media, more, hg, hm, he⟩
    · exact absurd hn hst
    · rw [onPlaying.loop_enriched sessionState stateStopped l sessions n rest session md media
        more hst hg hm he]
      exact ⟨rfl, _, ⟨some session, some media, rfl⟩, by simp [Run.after, updates]⟩

/-- When the loop applies every notification of a list, it issues one `Update`
per notification, in order. -/
theorem onPlaying.loop_updates_of_applies (ns : List PlaySessionStateNotification)
    (h : ∀ p ∈ ns, Applies sessionState stateStopped l sessions p) :
    List.Forall₂ (IsUpdateOf sessionState) ns
      (updates (onPlaying.loop sessionState stateStopped l sessions ns).calls) := by
  induction ns with
  | nil => simp [onPlaying.loop, updates]
  | cons n ns ih =>
    obtain ⟨_, u, hu, hcalls⟩ :=
      onPlaying.loop_cons_applies sessionState stateStopped l sessions n ns
        (h n (List.mem_cons_self n ns))
    rw [hcalls]
    exact List.Forall₂.cons hu (ih fun p hp => h p (List.mem_cons_of_mem n hp))

/-- At a failing notification the loop returns an error without an `Update`. -/
theorem onPlaying.loop_cons_fails (n : PlaySessionStateNotification)
    (rest : List PlaySessionStateNotification)
    (hn : Fails sessionState stateStopped l sessions n) :
    (∃ e, (onPlaying.loop sessionState stateStopped l sessions (n :: rest)).outcome =
      Outcome.error e) ∧
    updates (onPlaying.loop sessionState stateStopped l sessions (n :: rest)).calls = [] := by
  obtain ⟨hst, hfail⟩ := hn
  cases hg : getSessionByID sessions n.SessionKey with
  | none =>
    rw [onPlaying.loop_missing sessionState stateStopped l sessions n rest hst hg]
    exact ⟨⟨_, rfl⟩, rfl⟩
  | some session =>
    rcases hfail with hnone | ⟨err, hm⟩
    · rw [hg] at hnone
      cases hnone
    · rw [onPlaying.loop_fetch_error sessionState stateStopped l sessions n rest session err
        hst hg hm]
      exact ⟨⟨_, rfl⟩, rfl⟩

/-- At a failing notification the loop does not look at the rest of the
batch. -/
theorem onPlaying.loop_cons_fails_eq (n : PlaySessionStateNotification)
    (rest : List PlaySessionStateNotification)
    (hn : Fails sessionState stateStopped l sessions n) :
    onPlaying.loop sessionState stateStopped l sessions (n :: rest) =
      onPlaying.loop sessionState stateStopped l sessions [n] := by
  obtain ⟨hst, hfail⟩ := hn
  cases hg : getSessionByID sessions n.SessionKey with
  | none =>
    rw [onPlaying.loop_missing sessionState stateStopped l sessions n rest hst hg,
      onPlaying.loop_missing sessionState stateStopped l sessions n [] hst hg]
  | some session =>
    rcases hfail with hnone | ⟨err, hm⟩
    · rw [hg] at hnone
      cases hnone
    · rw [onPlaying.loop_fetch_error sessionState stateStopped l sessions n rest session err
          hst hg hm,
        onPlaying.loop_fetch_error sessionState stateStopped l sessions n [] session err
          hst hg hm]

omit [DecidableEq σ] in
/-- A notification that the loop applies does not fail. -/
theorem not_fails_of_applies (n : PlaySessionStateNotification)
    (hn : Applies sessionState stateStopped l sessions n) :
    ¬ Fails sessionState stateStopped l sessions n := by
  rintro ⟨hst, hfail⟩
  rcases hn with hn | ⟨session, md, media, more, hg, hm, he⟩
  · exact hst hn
  · rcases hfail with hnone | ⟨err, hm2⟩
    · rw [hg] at hnone
      cases hnone
    · rw [hm] at hm2
      cases hm2

/-- A notification that does not fail and whose metadata answer, if any, is
not empty is applied by the loop. -/
theorem applies_of_not_fails (n : PlaySessionStateNotification)
    (hne : ∀ md, l.conn.GetMetadata n.RatingKey = Except.ok md →
      md.MediaContainer.Metadata ≠ [])
    (hn : ¬ Fails sessionState stateStopped l sessions n) :
    Applies sessionState stateStopped l sessions n := by
  rcases onPlaying.loop_cases sessionState stateStopped l sessions n with
    hst | ⟨hst, hg⟩ | ⟨hst, session, err, hg, hm⟩ | ⟨hst, session, md, hg, hm, he⟩ |
    ⟨hst, session, md, media, more, hg, hm, he⟩
  · exact Or.inl hst
  · exact absurd ⟨hst, Or.inl hg⟩ hn
  · exact absurd ⟨hst, Or.inr ⟨err, hm⟩⟩ hn
  · exact absurd he (hne md hm)
  · exact Or.inr ⟨session, md, media, more, hg, hm, he⟩

/-- Notifications that differ only in `ViewOffset` give the same `Update`
calls in the loop. -/
theorem onPlaying.loop_updates_congr (ns₁ ns₂ : List PlaySessionStateNotification)
    (h : List.Forall₂ SameButViewOffset ns₁ ns₂) :
    updates (onPlaying.loop sessionState stateStopped l sessions ns₁).calls =
      updates (onPlaying.loop sessionState stateStopped l sessions ns₂).calls := by
  induction h with
  | nil => rfl
  | @cons a b r₁ r₂ hab _ ih =>
    obtain ⟨k, st, rk, o₁⟩ := a
    obtain ⟨k₂, st₂, rk₂, o₂⟩ := b
    obtain ⟨hk, hs, hr⟩ := hab
    simp only at hk hs hr
    subst hk hs hr
    rcases onPlaying.loop_cases sessionState stateStopped l sessions ⟨k, st, rk, o₁⟩ with
      hst | ⟨hst, hg⟩ | ⟨hst, session, err, hg, hm⟩ | ⟨hst, session, md, hg, hm, he⟩ |
      ⟨hst, session, md, media, more, hg, hm, he⟩
    · rw [onPlaying.loop_stopped sessionState stateStopped l sessions ⟨k, st, rk, o₁⟩ r₁ hst,
        onPlaying.loop_stopped sessionState stateStopped l sessions ⟨k, st, rk, o₂⟩ r₂ hst]
      simp [Run.after, updates, ih]
    · rw [onPlaying.loop_missing sessionState stateStopped l sessions ⟨k, st, rk, o₁⟩ r₁ hst hg,
        onPlaying.loop_missing sessionState stateStopped l sessions ⟨k, st, rk, o₂⟩ r₂ hst hg]
    · rw [onPlaying.loop_fetch_error sessionState stateStopped l sessions ⟨k, st, rk, o₁⟩ r₁
          session err hst hg hm,
        onPlaying.loop_fetch_error sessionState stateStopped l sessions ⟨k, st, rk, o₂⟩ r₂
          session err hst hg hm]
    · rw [onPlaying.loop_empty sessionState stateStopped l sessions ⟨k, st, rk, o₁⟩ r₁
          session md hst hg hm he,
        onPlaying.loop_empty sessionState stateStopped l sessions ⟨k, st, rk, o₂⟩ r₂
          session md hst hg hm he]
    · rw [onPlaying.loop_enriched sessionState stateStopped l sessions ⟨k, st, rk, o₁⟩ r₁
          session md media more hst hg hm he,
        onPlaying.loop_enriched sessionState stateStopped l sessions ⟨k, st, rk, o₂⟩ r₂
          session md media more hst hg hm he]
      simp [Run.after, updates, ih]

/-- When the current-sessions query fails, `onPlaying` ends with it. -/
theorem onPlaying_sessions_error_eq (c : NotificationContainer) (err : String)
    (hs : l.conn.GetSessions = Except.error err) :
    onPlaying sessionState stateStopped l c =
      ⟨[Call.GetSessions], Outcome.error (OnPlayingError.fetchingSessions err)⟩ := by
  simp [onPlaying, hs]

/-- A session that is listed is found by `getSessionByID`. -/
theorem getSessionByID_of_listed (sessionID : String)
    (h : ∃ s ∈ sessions.MediaContainer.Metadata, s.SessionKey = sessionID) :
    ∃ session, getSessionByID sessions sessionID = some session ∧
      session ∈ sessions.MediaContainer.Metadata ∧ session.SessionKey = sessionID := by
  cases hg : getSessionByID sessions sessionID with
  | none =>
    obtain ⟨s, hs, hk⟩ := h
    exact absurd hk ((getSessionByID.loop_eq_none _ _).mp hg s hs)
  | some session =>
    obtain ⟨pre, post, hl, hk, _⟩ := (getSessionByID.loop_eq_some _ _ session).mp hg
    exact ⟨session, rfl, by simp [hl], hk⟩

/-- A list with an element satisfying `P` splits at the first such element. -/
theorem exists_first_split {α : Type} (P : α → Prop) (ns : List α) (h : ∃ n ∈ ns, P n) :
    ∃ pre n post, ns = pre ++ n :: post ∧ (∀ p ∈ pre, ¬ P p) ∧ P n := by
  induction ns with
  | nil => simp at h
  | cons a ns ih =>
    by_cases ha : P a
    · exact ⟨[], a, ns, rfl, by simp, ha⟩
    · obtain ⟨n, hmem, hn⟩ := h
      rcases List.mem_cons.mp hmem with rfl | hmem
      · exact absurd hn ha
      · obtain ⟨pre, m, post, hsplit, hpre, hm⟩ := ih ⟨n, hmem, hn⟩
        refine ⟨a :: pre, m, post, by simp [hsplit], ?_, hm⟩
        intro p hp
        rcases List.mem_cons.mp hp with rfl | hp
        · exact ha
        · exact hpre p hp

/-- Away from empty metadata answers, `onPlaying` has the abort-on-first-
failure shape. When the current-sessions query succeeds and every metadata
answer for the batch is non-empty: `onPlaying` returns an error exactly when
some notification of the batch fails (it is not stopped and its session is
missing or its metadata query fails); without a failing notification it
returns `nil` after one `Update` per notification, in batch order; and with a
first failing notification the `Update` calls are one per notification before
it, in batch order, and none for it or after it. -/
theorem onPlaying_abort_shape_of_nonempty_metadata (c : NotificationContainer)
    (hs : l.conn.GetSessions = Except.ok sessions)
    (hne : ∀ n ∈ c.PlaySessionStateNotification, ∀ md,
      l.conn.GetMetadata n.RatingKey = Except.ok md → md.MediaContainer.Metadata ≠ []) :
    ((∃ e, (onPlaying sessionState stateStopped l c).outcome = Outcome.error e) ↔
      ∃ n ∈ c.PlaySessionStateNotification, Fails sessionState stateStopped l sessions n) ∧
    ((∀ n ∈ c.PlaySessionStateNotification, ¬ Fails sessionState stateStopped l sessions n) →
      (onPlaying sessionState stateStopped l c).outcome = Outcome.ok ∧
      List.Forall₂ (IsUpdateOf sessionState) c.PlaySessionStateNotification
        (updates (onPlaying sessionState stateStopped l c).calls)) ∧
    (∀ pre n post, c.PlaySessionStateNotification = pre ++ n :: post →
      (∀ p ∈ pre, ¬ Fails sessionState stateStopped l sessions p) →
      Fails sessionState stateStopped l sessions n →
      (∃ e, (onPlaying sessionState stateStopped l c).outcome = Outcome.error e) ∧
      List.Forall₂ (IsUpdateOf sessionState) pre
        (updates (onPlaying sessionState stateStopped l c).calls)) := by
  have hrun := onPlaying_of_sessions sessionState stateStopped l sessions c hs
  have hout : (onPlaying sessionState stateStopped l c).outcome =
      (onPlaying.loop sessionState stateStopped l sessions
        c.PlaySessionStateNotification).outcome := by
    rw [hrun, Run.after]
  have hupd : updates (onPlaying sessionState stateStopped l c).calls =
      updates (onPlaying.loop sessionState stateStopped l sessions
        c.PlaySessionStateNotification).calls := by
    rw [hrun, Run.after]
    rfl
  have hall : (∀ n ∈ c.PlaySessionStateNotification,
      ¬ Fails sessionState stateStopped l sessions n) →
      (onPlaying sessionState stateStopped l c).outcome = Outcome.ok ∧
      List.Forall₂ (IsUpdateOf sessionState) c.PlaySessionStateNotification
        (updates (onPlaying sessionState stateStopped l c).calls) := by
    intro hno
    have happ : ∀ p ∈ c.PlaySessionStateNotification,
        Applies sessionState stateStopped l sessions p := fun p hp =>
      applies_of_not_fails sessionState stateStopped l sessions p (hne p hp) (hno p hp)
    rw [hout, hupd]
    exact ⟨(onPlaying.loop_outcome_ok sessionState stateStopped l sessions _).mpr happ,
      onPlaying.loop_updates_of_applies sessionState stateStopped l sessions _ happ⟩
  have hfirst : ∀ pre n post, c.PlaySessionStateNotification = pre ++ n :: post →
      (∀ p ∈ pre, ¬ Fails sessionState stateStopped l sessions p) →
      Fails sessionState stateStopped l sessions n →
      (∃ e, (onPlaying sessionState stateStopped l c).outcome = Outcome.error e) ∧
      List.Forall₂ (IsUpdateOf sessionState) pre
        (updates (onPlaying sessionState stateStopped l c).calls) := by
    intro pre n post hsplit hpre hn
    have happ : ∀ p ∈ pre, Applies sessionState stateStopped l sessions p := fun p hp =>
      applies_of_not_fails sessionState stateStopped l sessions p
        (hne p (by rw [hsplit]; exact List.mem_append_left _ hp)) (hpre p hp)
    have hok := (onPlaying.loop_outcome_ok sessionState stateStopped l sessions pre).mpr happ
    obtain ⟨herr, hnone⟩ :=
      onPlaying.loop_cons_fails sessionState stateStopped l sessions n post hn
    rw [hout, hupd, hsplit,
      onPlaying.loop_append sessionState stateStopped l sessions pre _ hok]
    refine ⟨herr, ?_⟩
    simp only [Run.after, updates_append, hnone, List.append_nil]
    exact onPlaying.loop_updates_of_applies sessionState stateStopped l sessions pre happ
  refine ⟨⟨?_, ?_⟩, hall, hfirst⟩
  · rintro ⟨e, he⟩
    by_contra hno
    have hno2 : ∀ n ∈ c.PlaySessionStateNotification,
        ¬ Fails sessionState stateStopped l sessions n := fun n hn hf => hno ⟨n, hn, hf⟩
    rw [(hall hno2).1] at he
    cases he
  · intro h
    obtain ⟨pre, n, post, hsplit, hpre, hn⟩ := exists_first_split _ _ h
    exact (hfirst pre n post hsplit hpre hn).1

end loop

/-! ## Claims on `onPlaying` -/

section claims

variable {σ : Type} [DecidableEq σ] (sessionState : String → σ) (stateStopped : σ)
  (l : plexListener) (sessions : CurrentSessions)

/-- C1, refuted as stated: on a reachable server that lists only `s1`, the
batch made of a playing notification for the unlisted session `s2` followed
by a stopped notification for `s3` ends at the first one. The stopped
notification can be reconciled on its own, yet no `Update` is issued for its
session key. -/
theorem isolation_counterexample :
    demoListener.conn.GetSessions = Except.ok ⟨⟨[aliceSession]⟩⟩ ∧
    stoppedS3 ∈ [playingS2, stoppedS3] ∧
    id stoppedS3.State = "stopped" ∧
    ∀ st u m, Call.Update stoppedS3.SessionKey st u m ∉
      (onPlaying id "stopped" demoListener ⟨[playingS2, stoppedS3]⟩).calls := by
  have h : onPlaying id "stopped" demoListener ⟨[playingS2, stoppedS3]⟩ =
      ⟨[Call.GetSessions], Outcome.error (OnPlayingError.gettingSession "s2" playingS2)⟩ := by
    rfl
  refine ⟨rfl, by simp, rfl, ?_⟩
  intro st u m
  simp [h]

/-- C1, amended: isolation holds only up to the first failure. When the
current-sessions query succeeds and every notification before it in the batch
is applied by the loop (it is stopped, or its session is listed and its
metadata query answers with a non-empty list):
a notification that is itself of that kind results in an `Update` call for
its session key and state, issued right after one `Update` per earlier
notification, whatever follows it in the batch;
a notification that is not stopped and whose session is not listed or whose
metadata query fails makes `onPlaying` return an error, the run is the one of
the batch cut after that notification, and the `Update` calls are exactly one
per earlier notification, in batch order: neither that notification nor any
notification after it is updated. -/
theorem onPlaying_isolation_up_to_first_failure
    (pre : List PlaySessionStateNotification) (n : PlaySessionStateNotification)
    (post : List PlaySessionStateNotification)
    (hs : l.conn.GetSessions = Except.ok sessions)
    (hpre : ∀ p ∈ pre, Applies sessionState stateStopped l sessions p) :
    (Applies sessionState stateStopped l sessions n →
      ∃ us u m, List.Forall₂ (IsUpdateOf sessionState) pre us ∧
        Call.Update n.SessionKey (sessionState n.State) u m ∈
          (onPlaying sessionState stateStopped l ⟨pre ++ n :: post⟩).calls ∧
        updates (onPlaying sessionState stateStopped l ⟨pre ++ n :: post⟩).calls =
          us ++ Call.Update n.SessionKey (sessionState n.State) u m ::
            updates (onPlaying.loop sessionState stateStopped l sessions post).calls) ∧
    (Fails sessionState stateStopped l sessions n →
      (∃ e, (onPlaying sessionState stateStopped l ⟨pre ++ n :: post⟩).outcome =
        Outcome.error e) ∧
      onPlaying sessionState stateStopped l ⟨pre ++ n :: post⟩ =
        onPlaying sessionState stateStopped l ⟨pre ++ [n]⟩ ∧
      List.Forall₂ (IsUpdateOf sessionState) pre
        (updates (onPlaying sessionState stateStopped l ⟨pre ++ n :: post⟩).calls)) := by
  have hok := (onPlaying.loop_outcome_ok sessionState stateStopped l sessions pre).mpr hpre
  have hus := onPlaying.loop_updates_of_applies sessionState stateStopped l sessions pre hpre
  constructor
  · intro hn
    rw [onPlaying_of_sessions sessionState stateStopped l sessions _ hs,
      onPlaying.loop_append sessionState stateStopped l sessions pre _ hok]
    by_cases hst : sessionState n.State = stateStopped
    · refine ⟨_, none, none, hus, ?_, ?_⟩
      · rw [onPlaying.loop_stopped sessionState stateStopped l sessions n post hst]
        simp [Run.after, hst]
      · rw [onPlaying.loop_stopped sessionState stateStopped l sessions n post hst]
        simp [Run.after, updates, updates_append, hst]
    · rcases hn with hn | ⟨session, md, media, more, hg, hm, he⟩
      · exact absurd hn hst
      · refine ⟨_, some session, some media, hus, ?_, ?_⟩
        · rw [onPlaying.loop_enriched sessionState stateStopped l sessions n post session md
            media more hst hg hm he]
          simp [Run.after]
        · rw [onPlaying.loop_enriched sessionState stateStopped l sessions n post session md
            media more hst hg hm he]
          simp [Run.after, updates, updates_append]
  · intro hn
    obtain ⟨herr, hnone⟩ :=
      onPlaying.loop_cons_fails sessionState stateStopped l sessions n post hn
    have hrun : onPlaying sessionState stateStopped l ⟨pre ++ n :: post⟩ =
        Run.after [Call.GetSessions]
          (Run.after (onPlaying.loop sessionState stateStopped l sessions pre).calls
            (onPlaying.loop sessionState stateStopped l sessions (n :: post))) := by
      rw [onPlaying_of_sessions sessionState stateStopped l sessions _ hs,
        onPlaying.loop_append sessionState stateStopped l sessions pre _ hok]
    refine ⟨?_, ?_, ?_⟩
    · rw [hrun]
      exact herr
    · rw [hrun, onPlaying_of_sessions sessionState stateStopped l sessions ⟨pre ++ [n]⟩ hs,
        onPlaying.loop_append sessionState stateStopped l sessions pre _ hok,
        onPlaying.loop_cons_fails_eq sessionState stateStopped l sessions n post hn]
    · have hupd : updates (Run.after [Call.GetSessions]
            (Run.after (onPlaying.loop sessionState stateStopped l sessions pre).calls
              (onPlaying.loop sessionState stateStopped l sessions (n :: post)))).calls =
          updates (onPlaying.loop sessionState stateStopped l sessions pre).calls := by
        simp [Run.after, updates, updates_append, hnone]
      rw [hrun, hupd]
      exact hus

/-- C1, amended, at concrete batches on the server that lists only `s1`. In
stopped `s3`, playing `s1`, playing `s2` the second notification is updated.
In stopped `s3`, playing `s1`, playing `s2`, stopped `s1` the third one, whose
session is not listed, makes `onPlaying` return an error; the updates are
those of the first two notifications and the last one is not updated. -/
theorem onPlaying_isolation_up_to_first_failure_witness :
    (∃ u m, Call.Update "s1" "playing" u m ∈
      (onPlaying id "stopped" demoListener ⟨[stoppedS3, playingS1, playingS2]⟩).calls) ∧
    (∃ e, (onPlaying id "stopped" demoListener
        ⟨[stoppedS3, playingS1, playingS2, stoppedS1]⟩).outcome = Outcome.error e) ∧
    onPlaying id "stopped" demoListener ⟨[stoppedS3, playingS1, playingS2, stoppedS1]⟩ =
      onPlaying id "stopped" demoListener ⟨[stoppedS3, playingS1, playingS2]⟩ ∧
    List.Forall₂ (IsUpdateOf id) [stoppedS3, playingS1]
      (updates (onPlaying id "stopped" demoListener
        ⟨[stoppedS3, playingS1, playingS2, stoppedS1]⟩).calls) := by
  have happ1 : Applies id "stopped" demoListener ⟨⟨[aliceSession]⟩⟩ playingS1 :=
    Or.inr ⟨aliceSession, ⟨⟨[movie]⟩⟩, movie, [], rfl, rfl, rfl⟩
  have happ3 : Applies id "stopped" demoListener ⟨⟨[aliceSession]⟩⟩ stoppedS3 := Or.inl rfl
  have hfail2 : Fails id "stopped" demoListener ⟨⟨[aliceSession]⟩⟩ playingS2 :=
    ⟨by decide, Or.inl rfl⟩
  obtain ⟨_, u, m, _, hmem, _⟩ :=
    (onPlaying_isolation_up_to_first_failure id "stopped" demoListener ⟨⟨[aliceSession]⟩⟩
      [stoppedS3] playingS1 [playingS2] rfl
      (by
        intro p hp
        rw [List.mem_singleton] at hp
        subst hp
        exact happ3)).1 happ1
  have hb :=
    (onPlaying_isolation_up_to_first_failure id "stopped" demoListener ⟨⟨[aliceSession]⟩⟩
      [stoppedS3, playingS1] playingS2 [stoppedS1] rfl
      (by
        intro p hp
        rcases List.mem_cons.mp hp with rfl | hp
        · exact happ3
        · rw [List.mem_singleton] at hp
          subst hp
          exact happ1)).2 hfail2
  exact ⟨⟨u, m, hmem⟩, hb.1, hb.2.1, hb.2.2⟩

/-- C2, refuted as stated: `onPlaying` queries the current sessions before it
looks at any notification. With an unreachable server the batch holding one
stopped notification ends with that query: no `Update` is issued. -/
theorem stopped_direct_counterexample :
    id stoppedS1.State = "stopped" ∧
    Call.GetSessions ∈ (onPlaying id "stopped" downListener ⟨[stoppedS1]⟩).calls ∧
    (∀ st u m, Call.Update stoppedS1.SessionKey st u m ∉
      (onPlaying id "stopped" downListener ⟨[stoppedS1]⟩).calls) ∧
    (onPlaying id "stopped" downListener ⟨[stoppedS1]⟩).outcome =
      Outcome.error (OnPlayingError.fetchingSessions "connection refused") := by
  have h : onPlaying id "stopped" downListener ⟨[stoppedS1]⟩ =
      ⟨[Call.GetSessions],
        Outcome.error (OnPlayingError.fetchingSessions "connection refused")⟩ := by
    rfl
  refine ⟨rfl, by simp [h], ?_, by simp [h]⟩
  intro st u m
  simp [h]

/-- C2, amended: when the current-sessions query (made once, at the start of
every call of `onPlaying`) succeeds and the loop reaches a stopped
notification, the only call made for that notification is
`Update(key, stopped, nil, nil)`: no metadata is fetched and the session list
is not searched for it, and the loop goes on with the rest of the batch. -/
theorem onPlaying_stopped
    (pre : List PlaySessionStateNotification) (n : PlaySessionStateNotification)
    (post : List PlaySessionStateNotification)
    (hs : l.conn.GetSessions = Except.ok sessions)
    (hpre : (onPlaying.loop sessionState stateStopped l sessions pre).outcome = Outcome.ok)
    (hn : sessionState n.State = stateStopped) :
    onPlaying sessionState stateStopped l ⟨pre ++ n :: post⟩ =
      Run.after
        (Call.GetSessions :: (onPlaying.loop sessionState stateStopped l sessions pre).calls ++
          [Call.Update n.SessionKey stateStopped none none])
        (onPlaying.loop sessionState stateStopped l sessions post) := by
  rw [onPlaying_of_sessions sessionState stateStopped l sessions _ hs,
    onPlaying.loop_append sessionState stateStopped l sessions pre _ hpre,
    onPlaying.loop_stopped sessionState stateStopped l sessions n post hn]
  simp [Run.after]

/-- C2, amended, at a concrete batch: playing `s1`, then stopped `s1`. -/
theorem onPlaying_stopped_witness :
    onPlaying id "stopped" demoListener ⟨[playingS1, stoppedS1]⟩ =
      ⟨[Call.GetSessions, Call.GetMetadata "m1",
        Call.LogInfo ⟨"s1", "alice", "7", "playing", "Movie", "m1", 1000000000⟩,
        Call.Update "s1" "playing" (some aliceSession) (some movie),
        Call.Update "s1" "stopped" none none], Outcome.ok⟩ :=
  (onPlaying_stopped id "stopped" demoListener ⟨⟨[aliceSession]⟩⟩ [playingS1] stoppedS1 []
    rfl rfl rfl).trans rfl

/-- C3, refuted as stated: a playing notification for the session `s2`, which
the reachable server does not list, makes `onPlaying` return an error after
the current-sessions query; the registry is not updated for `s2`. -/
theorem session_vanished_counterexample :
    id playingS2.State ≠ "stopped" ∧
    (∀ s ∈ [aliceSession], s.SessionKey ≠ playingS2.SessionKey) ∧
    onPlaying id "stopped" demoListener ⟨[playingS2]⟩ =
      ⟨[Call.GetSessions], Outcome.error (OnPlayingError.gettingSession "s2" playingS2)⟩ ∧
    Call.Update playingS2.SessionKey "stopped" none none ∉
      (onPlaying id "stopped" demoListener ⟨[playingS2]⟩).calls := by
  have h : onPlaying id "stopped" demoListener ⟨[playingS2]⟩ =
      ⟨[Call.GetSessions], Outcome.error (OnPlayingError.gettingSession "s2" playingS2)⟩ := by
    rfl
  refine ⟨by decide, by decide, h, ?_⟩
  simp [h]

/-- C3, amended: when the loop reaches a notification that is not stopped and
whose session key is the key of no entry of the current-sessions list,
`onPlaying` returns the error "error getting session with key" for that
notification. The calls made are the current-sessions query and the calls for
the notifications before it: no `Update` is issued for the notification, and
the notifications after it are not processed. -/
theorem onPlaying_session_missing
    (pre : List PlaySessionStateNotification) (n : PlaySessionStateNotification)
    (post : List PlaySessionStateNotification)
    (hs : l.conn.GetSessions = Except.ok sessions)
    (hpre : (onPlaying.loop sessionState stateStopped l sessions pre).outcome = Outcome.ok)
    (hn : sessionState n.State ≠ stateStopped)
    (hmiss : ∀ s ∈ sessions.MediaContainer.Metadata, s.SessionKey ≠ n.SessionKey) :
    onPlaying sessionState stateStopped l ⟨pre ++ n :: post⟩ =
      ⟨Call.GetSessions :: (onPlaying.loop sessionState stateStopped l sessions pre).calls,
        Outcome.error (OnPlayingError.gettingSession n.SessionKey n)⟩ := by
  have hg : getSessionByID sessions n.SessionKey = none :=
    (getSessionByID.loop_eq_none _ _).mpr hmiss
  rw [onPlaying_of_sessions sessionState stateStopped l sessions _ hs,
    onPlaying.loop_append sessionState stateStopped l sessions pre _ hpre,
    onPlaying.loop_missing sessionState stateStopped l sessions n post hn hg]
  simp [Run.after]

/-- C3, amended, at a concrete batch: stopped `s3`, then playing `s2` (not
listed), then stopped `s1`. -/
theorem onPlaying_session_missing_witness :
    onPlaying id "stopped" demoListener ⟨[stoppedS3, playingS2, stoppedS1]⟩ =
      ⟨[Call.GetSessions, Call.Update "s3" "stopped" none none],
        Outcome.error (OnPlayingError.gettingSession "s2" playingS2)⟩ :=
  (onPlaying_session_missing id "stopped" demoListener ⟨⟨[aliceSession]⟩⟩ [stoppedS3] playingS2
    [stoppedS1] rfl rfl (by decide) (by decide)).trans rfl

/-- C4, refuted as stated: a playing notification for the listed session `s1`
whose metadata query fails makes `onPlaying` return that failure as an error;
no `Update` is issued. -/
theorem metadata_unavailable_counterexample :
    id playingS1Unknown.State ≠ "stopped" ∧
    getSessionByID ⟨⟨[aliceSession]⟩⟩ playingS1Unknown.SessionKey = some aliceSession ∧
    demoListener.conn.GetMetadata playingS1Unknown.RatingKey = Except.error "404 Not Found" ∧
    onPlaying id "stopped" demoListener ⟨[playingS1Unknown]⟩ =
      ⟨[Call.GetSessions, Call.GetMetadata "m9"],
        Outcome.error (OnPlayingError.fetchingMetadata "m9" "404 Not Found")⟩ ∧
    ∀ st u m, Call.Update playingS1Unknown.SessionKey st u m ∉
      (onPlaying id "stopped" demoListener ⟨[playingS1Unknown]⟩).calls := by
  have h : onPlaying id "stopped" demoListener ⟨[playingS1Unknown]⟩ =
      ⟨[Call.GetSessions, Call.GetMetadata "m9"],
        Outcome.error (OnPlayingError.fetchingMetadata "m9" "404 Not Found")⟩ := by
    rfl
  refine ⟨by decide, rfl, rfl, h, ?_⟩
  intro st u m
  simp [h]

/-- C4, amended: when the loop reaches a notification that is not stopped,
whose session is listed and whose metadata query fails, `onPlaying` returns
the error "error fetching metadata for key" wrapping that failure. The calls
made are the current-sessions query, the calls for the notifications before
it and the failed metadata query: no `Update` is issued for the notification,
and the notifications after it are not processed. -/
theorem onPlaying_metadata_error
    (pre : List PlaySessionStateNotification) (n : PlaySessionStateNotification)
    (post : List PlaySessionStateNotification) (err : String)
    (hs : l.conn.GetSessions = Except.ok sessions)
    (hpre : (onPlaying.loop sessionState stateStopped l sessions pre).outcome = Outcome.ok)
    (hn : sessionState n.State ≠ stateStopped)
    (hfound : ∃ s ∈ sessions.MediaContainer.Metadata, s.SessionKey = n.SessionKey)
    (hm : l.conn.GetMetadata n.RatingKey = Except.error err) :
    onPlaying sessionState stateStopped l ⟨pre ++ n :: post⟩ =
      ⟨Call.GetSessions :: (onPlaying.loop sessionState stateStopped l sessions pre).calls ++
          [Call.GetMetadata n.RatingKey],
        Outcome.error (OnPlayingError.fetchingMetadata n.RatingKey err)⟩ := by
  obtain ⟨session, hg, _, _⟩ := getSessionByID_of_listed sessions n.SessionKey hfound
  rw [onPlaying_of_sessions sessionState stateStopped l sessions _ hs,
    onPlaying.loop_append sessionState stateStopped l sessions pre _ hpre,
    onPlaying.loop_fetch_error sessionState stateStopped l sessions n post session err hn hg hm]
  simp [Run.after]

/-- C4, amended, at a concrete batch: stopped `s3`, then playing `s1` with the
unknown media `m9`, then stopped `s1`. -/
theorem onPlaying_metadata_error_witness :
    onPlaying id "stopped" demoListener ⟨[stoppedS3, playingS1Unknown, stoppedS1]⟩ =
      ⟨[Call.GetSessions, Call.Update "s3" "stopped" none none, Call.GetMetadata "m9"],
        Outcome.error (OnPlayingError.fetchingMetadata "m9" "404 Not Found")⟩ :=
  (onPlaying_metadata_error id "stopped" demoListener ⟨⟨[aliceSession]⟩⟩ [stoppedS3]
    playingS1Unknown [stoppedS1] "404 Not Found" rfl rfl (by decide)
    ⟨aliceSession, by simp, rfl⟩ rfl).trans rfl

/-- C5, refuted as stated: the playing notification for `s1` has its session
listed and its metadata query succeeds with a non-empty list, but in the batch
where it follows a playing notification for the unlisted session `s2`,
`onPlaying` returns at the first notification: no `Update` is issued for `s1`
and no metadata is fetched. -/
theorem success_path_counterexample :
    id playingS1.State ≠ "stopped" ∧
    getSessionByID ⟨⟨[aliceSession]⟩⟩ playingS1.SessionKey = some aliceSession ∧
    demoListener.conn.GetMetadata playingS1.RatingKey = Except.ok ⟨⟨[movie]⟩⟩ ∧
    onPlaying id "stopped" demoListener ⟨[playingS2, playingS1]⟩ =
      ⟨[Call.GetSessions], Outcome.error (OnPlayingError.gettingSession "s2" playingS2)⟩ ∧
    ∀ st u m, Call.Update playingS1.SessionKey st u m ∉
      (onPlaying id "stopped" demoListener ⟨[playingS2, playingS1]⟩).calls := by
  have h : onPlaying id "stopped" demoListener ⟨[playingS2, playingS1]⟩ =
      ⟨[Call.GetSessions], Outcome.error (OnPlayingError.gettingSession "s2" playingS2)⟩ := by
    rfl
  refine ⟨by decide, rfl, rfl, h, ?_⟩
  intro st u m
  simp [h]

/-- C5, amended: when the current-sessions query succeeded and the loop
reaches (no earlier notification of the batch made `onPlaying` return) a
notification that is not stopped, whose session key matches an entry of the
current-sessions list and whose metadata query succeeds with a non-empty
list, the calls made for that notification are the metadata query, the log
line (whose timestamp is the `int64` product of `time.Millisecond` and the
view offset) and exactly one `Update(key, sessionState(n.State), session,
media)`, where `session` is the entry found by `getSessionByID` (an entry of
the list whose `SessionKey` is the key of the notification) and `media` is
the first entry of the fetched metadata; the loop then goes on with the rest
of the batch. -/
theorem onPlaying_enriched
    (pre : List PlaySessionStateNotification) (n : PlaySessionStateNotification)
    (post : List PlaySessionStateNotification) (md : MediaMetadata) (media : Metadata)
    (more : List Metadata)
    (hs : l.conn.GetSessions = Except.ok sessions)
    (hpre : (onPlaying.loop sessionState stateStopped l sessions pre).outcome = Outcome.ok)
    (hn : sessionState n.State ≠ stateStopped)
    (hfound : ∃ s ∈ sessions.MediaContainer.Metadata, s.SessionKey = n.SessionKey)
    (hm : l.conn.GetMetadata n.RatingKey = Except.ok md)
    (he : md.MediaContainer.Metadata = media :: more) :
    ∃ session, getSessionByID sessions n.SessionKey = some session ∧
      session ∈ sessions.MediaContainer.Metadata ∧ session.SessionKey = n.SessionKey ∧
      onPlaying sessionState stateStopped l ⟨pre ++ n :: post⟩ =
        Run.after
          (Call.GetSessions :: (onPlaying.loop sessionState stateStopped l sessions pre).calls ++
            [Call.GetMetadata n.RatingKey,
             Call.LogInfo ⟨n.SessionKey, session.User.Title, session.User.ID, n.State,
               media.Title, media.RatingKey,
               wrapInt64 (time.Millisecond * n.ViewOffset)⟩,
             Call.Update n.SessionKey (sessionState n.State) (some session) (some media)])
          (onPlaying.loop sessionState stateStopped l sessions post) := by
  obtain ⟨session, hg, hmem, hk⟩ := getSessionByID_of_listed sessions n.SessionKey hfound
  refine ⟨session, hg, hmem, hk, ?_⟩
  rw [onPlaying_of_sessions sessionState stateStopped l sessions _ hs,
    onPlaying.loop_append sessionState stateStopped l sessions pre _ hpre,
    onPlaying.loop_enriched sessionState stateStopped l sessions n post session md media more
      hn hg hm he]
  simp [Run.after]

/-- C5, amended, at the event of the claim and inside a longer batch. The
event `s1` playing `m1`, with the list `s1 -> user 7 alice` and the metadata
`m1 -> Movie`, gives `Update("s1", playing, alice, Movie)` and `onPlaying`
returns `nil`; between a stopped `s3` and a stopped `s1` it gives the same
`Update`, after the one for `s3` and before the one for `s1`. -/
theorem onPlaying_enriched_witness :
    onPlaying id "stopped" demoListener ⟨[playingS1]⟩ =
      ⟨[Call.GetSessions, Call.GetMetadata "m1",
        Call.LogInfo ⟨"s1", "alice", "7", "playing", "Movie", "m1", 1000000000⟩,
        Call.Update "s1" "playing" (some aliceSession) (some movie)], Outcome.ok⟩ ∧
    onPlaying id "stopped" demoListener ⟨[stoppedS3, playingS1, stoppedS1]⟩ =
      ⟨[Call.GetSessions, Call.Update "s3" "stopped" none none, Call.GetMetadata "m1",
        Call.LogInfo ⟨"s1", "alice", "7", "playing", "Movie", "m1", 1000000000⟩,
        Call.Update "s1" "playing" (some aliceSession) (some movie),
        Call.Update "s1" "stopped" none none], Outcome.ok⟩ := by
  have hfind : getSessionByID ⟨⟨[aliceSession]⟩⟩ playingS1.SessionKey = some aliceSession :=
    rfl
  constructor
  · obtain ⟨session, hg, _, _, hrun⟩ :=
      onPlaying_enriched id "stopped" demoListener ⟨⟨[aliceSession]⟩⟩ [] playingS1 []
        ⟨⟨[movie]⟩⟩ movie [] rfl rfl (by decide) ⟨aliceSession, by simp, rfl⟩ rfl rfl
    rw [hfind] at hg
    obtain rfl := Option.some.inj hg
    exact hrun.trans rfl
  · obtain ⟨session, hg, _, _, hrun⟩ :=
      onPlaying_enriched id "stopped" demoListener ⟨⟨[aliceSession]⟩⟩ [stoppedS3] playingS1
        [stoppedS1] ⟨⟨[movie]⟩⟩ movie [] rfl rfl (by decide) ⟨aliceSession, by simp, rfl⟩
        rfl rfl
    rw [hfind] at hg
    obtain rfl := Option.some.inj hg
    exact hrun.trans rfl

/-- C6, the code at the failing input: for a playing notification whose session
is listed and whose metadata query succeeds with an empty list, `onPlaying`
ends in the index failure of `Metadata[0]` right after the metadata query;
no `Update` has been issued. -/
theorem onPlaying_empty_metadata_index_failure :
    id playingS1Empty.State ≠ "stopped" ∧
    getSessionByID ⟨⟨[aliceSession]⟩⟩ playingS1Empty.SessionKey = some aliceSession ∧
    demoListener.conn.GetMetadata playingS1Empty.RatingKey = Except.ok ⟨⟨[]⟩⟩ ∧
    onPlaying id "stopped" demoListener ⟨[playingS1Empty]⟩ =
      ⟨[Call.GetSessions, Call.GetMetadata "m0"], Outcome.indexOutOfRange⟩ :=
  ⟨by decide, rfl, rfl, rfl⟩

/-- C7, refuted as stated: with an unreachable server, `onPlaying` returns
the failure of the current-sessions query; of the two notifications of the
batch none reaches the registry. -/
theorem transport_error_counterexample :
    downListener.conn.GetSessions = Except.error "connection refused" ∧
    onPlaying id "stopped" downListener ⟨[playingS1, stoppedS3]⟩ =
      ⟨[Call.GetSessions],
        Outcome.error (OnPlayingError.fetchingSessions "connection refused")⟩ ∧
    updates (onPlaying id "stopped" downListener ⟨[playingS1, stoppedS3]⟩).calls = [] :=
  ⟨rfl, rfl, rfl⟩

/-- C7, amended: when the current-sessions query fails, `onPlaying` returns
the error "error fetching sessions" wrapping that failure before it looks at
any notification: the query is the only call made, so no `Update` is issued
and no metadata is fetched, whatever the batch. -/
theorem onPlaying_sessions_error (c : NotificationContainer) (err : String)
    (hs : l.conn.GetSessions = Except.error err) :
    onPlaying sessionState stateStopped l c =
      ⟨[Call.GetSessions], Outcome.error (OnPlayingError.fetchingSessions err)⟩ := by
  simp [onPlaying, hs]

/-- C7, amended, at a concrete batch on the unreachable server. -/
theorem onPlaying_sessions_error_witness :
    onPlaying id "stopped" downListener ⟨[stoppedS1, playingS1]⟩ =
      ⟨[Call.GetSessions],
        Outcome.error (OnPlayingError.fetchingSessions "connection refused")⟩ :=
  onPlaying_sessions_error id "stopped" downListener ⟨[stoppedS1, playingS1]⟩
    "connection refused" rfl

/-- C8, refuted as stated: two batches that differ only in the `ViewOffset`
of their notification (1000 and 2000) produce the same `Update` calls; the
`Update` call has no view offset among its arguments. -/
theorem view_offset_counterexample :
    playingS1.ViewOffset ≠ playingS1Later.ViewOffset ∧
    SameButViewOffset playingS1 playingS1Later ∧
    updates (onPlaying id "stopped" demoListener ⟨[playingS1]⟩).calls =
      [Call.Update "s1" "playing" (some aliceSession) (some movie)] ∧
    updates (onPlaying id "stopped" demoListener ⟨[playingS1Later]⟩).calls =
      [Call.Update "s1" "playing" (some aliceSession) (some movie)] :=
  ⟨by decide, ⟨rfl, rfl, rfl⟩, rfl, rfl⟩

/-- C8, amended: the view offset is not passed to the registry. `Update` is
called with the session key, the state, the session and the media only, so
two batches whose notifications differ only in `ViewOffset` produce the same
sequence of `Update` calls. -/
theorem onPlaying_updates_ignore_view_offset (c₁ c₂ : NotificationContainer)
    (h : List.Forall₂ SameButViewOffset c₁.PlaySessionStateNotification
      c₂.PlaySessionStateNotification) :
    updates (onPlaying sessionState stateStopped l c₁).calls =
      updates (onPlaying sessionState stateStopped l c₂).calls := by
  cases hs : l.conn.GetSessions with
  | error err =>
    rw [onPlaying_sessions_error_eq sessionState stateStopped l c₁ err hs,
      onPlaying_sessions_error_eq sessionState stateStopped l c₂ err hs]
  | ok sessions =>
    rw [onPlaying_of_sessions sessionState stateStopped l sessions c₁ hs,
      onPlaying_of_sessions sessionState stateStopped l sessions c₂ hs]
    simp only [Run.after, updates]
    exact onPlaying.loop_updates_congr sessionState stateStopped l sessions _ _ h

/-- C8, amended, at a concrete pair of batches: a playing and a stopped
notification for `s1`, with the offsets (1000, 5000) and (2000, 5000). -/
theorem onPlaying_updates_ignore_view_offset_witness :
    updates (onPlaying id "stopped" demoListener ⟨[playingS1, stoppedS1]⟩).calls =
      updates (onPlaying id "stopped" demoListener ⟨[playingS1Later, stoppedS1]⟩).calls :=
  onPlaying_updates_ignore_view_offset id "stopped" demoListener
    ⟨[playingS1, stoppedS1]⟩ ⟨[playingS1Later, stoppedS1]⟩
    (List.Forall₂.cons ⟨rfl, rfl, rfl⟩ (List.Forall₂.cons ⟨rfl, rfl, rfl⟩ List.Forall₂.nil))

/-- C10, the code at the failing input: in the batch made of a playing
notification for `s1` whose metadata query answers with an empty list,
followed by a stopped notification for `s3`, no notification has a missing
session or a failed metadata query. Yet `onPlaying` does not return `nil`
after two `Update` calls: it ends in the index failure of `Metadata[0]` and
no `Update` is issued. -/
theorem onPlaying_abort_shape_broken_by_empty_metadata :
    demoListener.conn.GetSessions = Except.ok ⟨⟨[aliceSession]⟩⟩ ∧
    (∀ n ∈ [playingS1Empty, stoppedS3],
      ¬ Fails id "stopped" demoListener ⟨⟨[aliceSession]⟩⟩ n) ∧
    (onPlaying id "stopped" demoListener ⟨[playingS1Empty, stoppedS3]⟩).outcome =
      Outcome.indexOutOfRange ∧
    updates (onPlaying id "stopped" demoListener ⟨[playingS1Empty, stoppedS3]⟩).calls = [] := by
  refine ⟨rfl, ?_, rfl, rfl⟩
  intro n hn
  rcases List.mem_cons.mp hn with rfl | hn
  · rintro ⟨_, hnone | ⟨err, herr⟩⟩
    · exact absurd hnone (by decide)
    · have h0 : demoListener.conn.GetMetadata playingS1Empty.RatingKey = Except.ok ⟨⟨[]⟩⟩ :=
        rfl
      rw [h0] at herr
      cases herr
  · rw [List.mem_singleton] at hn
    subst hn
    rintro ⟨hst, _⟩
    exact hst rfl

end claims

end Plex
